import Mathlib

/-!
Verification of the Eventplanner-Back request-handling layer.

The Go handlers (`CreateEvent`, `InviteUser`, `SetAttendance`, `DeleteEvent`,
`GetInvitedEvents`, `SearchHandler`) are embedded shallowly: the relational
store is a record of lists, each GORM call is an explicit lookup/update on
those lists, and every store call that can fail in Go takes an injectable
fault (`Faults`) so that error-propagation behaviour is provable.  Machine
times (`time.Time`) are embedded as integer seconds on the proleptic
Gregorian calendar; Go's `time.Parse` for the two accepted layouts
(RFC3339 and "2006-01-02") is reimplemented on character lists.  Case
mappings (`strings.ToLower`, `strings.Title`, `ILIKE`) are modelled on the
ASCII range, the only range the validated vocabulary of the service uses.
-/

namespace EventPlanner

/-- Error taxonomy of the service (HTTP 401/400/404/403/500 responses). -/
inductive ApiError where
  | unauthorized
  | validationError (msg : String)
  | notFound (msg : String)
  | forbidden (msg : String)
  | internalError (msg : String)
deriving DecidableEq, Repr

def ApiError.isValidation : ApiError → Bool
  | .validationError _ => true
  | _ => false

/-- Result of a GORM query: a row, `gorm.ErrRecordNotFound`, or another
store-layer error carrying its message. -/
inductive GormErr where
  | recordNotFound
  | other (msg : String)
deriving DecidableEq, Repr

/-- A fault schedule: for each store-call site of a handler (numbered in the
doc comment of the handler), `some msg` injects a store-layer failure with
that message; `none` lets the call hit the in-memory store. -/
def Faults : Type := Nat → Option String

def noFault : Faults := fun _ => none

def faultAt (k : Nat) (msg : String) : Faults :=
  fun n => if n == k then some msg else none

/-- `DB.First`/`DB.Where(...).First` with an injectable fault: a fault yields a
non-record-not-found store error, otherwise the pure lookup result decides
between the row and `gorm.ErrRecordNotFound`. -/
def dbFirst (fault : Option String) (res : Option α) : Except GormErr α :=
  match fault with
  | some msg => .error (.other msg)
  | none =>
    match res with
    | some a => .ok a
    | none => .error .recordNotFound

/-- `DB.Create` / `DB.Save` / `DB.Delete` with an injectable fault. -/
def dbWrite (fault : Option String) : Except String Unit :=
  match fault with
  | some msg => .error msg
  | none => .ok ()

/-! ### Go string helpers (ASCII range) -/

/-- ASCII whitespace trimmed by `strings.TrimSpace`. -/
def isAsciiSpace (c : Char) : Bool :=
  c == ' ' || c == '\t' || c == '\n' || c == '\x0b' || c == '\x0c' || c == '\r'

/-- `strings.TrimSpace` (ASCII range). -/
def goTrimSpace (s : String) : String :=
  String.mk (((s.data.dropWhile isAsciiSpace).reverse.dropWhile isAsciiSpace).reverse)

def lowerChar (c : Char) : Char :=
  if 'A' ≤ c && c ≤ 'Z' then Char.ofNat (c.toNat + 32) else c

/-- `strings.ToLower` (ASCII range). -/
def goToLower (s : String) : String := String.mk (s.data.map lowerChar)

def upperChar (c : Char) : Char :=
  if 'a' ≤ c && c ≤ 'z' then Char.ofNat (c.toNat - 32) else c

/-- Complement of Go's `isSeparator` on the ASCII range: letters, digits and
underscore are word characters, every other ASCII rune separates words. -/
def isWordChar (c : Char) : Bool :=
  ('a' ≤ c && c ≤ 'z') || ('A' ≤ c && c ≤ 'Z') || ('0' ≤ c && c ≤ '9') || c == '_'

/-- `strings.Title`: upper-cases every rune whose predecessor is a separator;
the predecessor of the first rune counts as a separator (Go seeds it with a
space). -/
def goTitleAux : Char → List Char → List Char
  | _, [] => []
  | prev, c :: rest => (if !isWordChar prev then upperChar c else c) :: goTitleAux c rest

def goTitle (s : String) : String := String.mk (goTitleAux ' ' s.data)

/-- The status normalization of `SetAttendance`:
`strings.Title(strings.ToLower(strings.TrimSpace(status)))`. -/
def normalizeStatus (s : String) : String := goTitle (goToLower (goTrimSpace s))

/-- Substring test on character lists (for SQL `ILIKE '%kw%'`). -/
def infixOfChars (p : List Char) : List Char → Bool
  | [] => p.isEmpty
  | c :: rest => p.isPrefixOf (c :: rest) || infixOfChars p rest

/-- Case-insensitive substring match: `column ILIKE '%' + keyword + '%'`. -/
def ilike (pat s : String) : Bool :=
  infixOfChars (goToLower pat).data (goToLower s).data

/-! ### Calendar and date parsing (`time.Parse` for the two accepted layouts) -/

def digitVal (c : Char) : Option Nat :=
  if '0' ≤ c && c ≤ '9' then some (c.toNat - '0'.toNat) else none

def digits2 (a b : Char) : Option Nat := do
  let x ← digitVal a
  let y ← digitVal b
  pure (10 * x + y)

def digits4 (a b c d : Char) : Option Nat := do
  let x ← digits2 a b
  let y ← digits2 c d
  pure (100 * x + y)

def isLeapYear (y : Nat) : Bool :=
  y % 4 == 0 && (y % 100 != 0 || y % 400 == 0)

def daysInMonth (y m : Nat) : Nat :=
  if m == 2 then (if isLeapYear y then 29 else 28)
  else if m == 4 || m == 6 || m == 9 || m == 11 then 30
  else 31

/-- Days from 1970-01-01 to year `y`, month `m`, day `d` of the proleptic
Gregorian calendar (civil-from-days construction; Lean's integer division is
Euclidean, so no truncation adjustment is needed for negative years). -/
def daysFromCivil (y : Int) (m d : Nat) : Int :=
  let y' : Int := if m ≤ 2 then y - 1 else y
  let era : Int := y' / 400
  let yoe : Int := y' - era * 400
  let mp : Int := (Int.ofNat m + 9) % 12
  let doy : Int := (153 * mp + 2) / 5 + Int.ofNat d - 1
  let doe : Int := yoe * 365 + yoe / 4 - yoe / 100 + doy
  era * 146097 + doe - 719468

/-- UTC timestamp in seconds since the Unix epoch. -/
def mkTimestamp (y : Int) (mo d h mi s : Nat) : Int :=
  daysFromCivil y mo d * 86400 + Int.ofNat (h * 3600 + mi * 60 + s)

/-- `time.Parse("2006-01-02", s)`: exactly `YYYY-MM-DD`, four-digit year,
zero-padded month and day, both range-checked (leap years included). -/
def parseYMD (str : String) : Option Int :=
  match str.data with
  | [y1, y2, y3, y4, s1, m1, m2, s2, d1, d2] =>
    if s1 == '-' && s2 == '-' then
      match digits4 y1 y2 y3 y4, digits2 m1 m2, digits2 d1 d2 with
      | some y, some mo, some d =>
        if 1 ≤ mo && mo ≤ 12 && 1 ≤ d && d ≤ daysInMonth y mo then
          some (mkTimestamp (Int.ofNat y) mo d 0 0 0)
        else none
      | _, _, _ => none
    else none
  | _ => none

def dropDigits : List Char → List Char
  | [] => []
  | c :: rest => if (digitVal c).isSome then dropDigits rest else c :: rest

/-- Zone suffix of an RFC3339 string: `Z`, or `±hh:mm` with `hh ≤ 23`,
`mm ≤ 59`; yields the zone offset in seconds. -/
def parseZone : List Char → Option Int
  | ['Z'] => some 0
  | [sign, z1, z2, c, z3, z4] =>
    if (sign == '+' || sign == '-') && c == ':' then
      match digits2 z1 z2, digits2 z3 z4 with
      | some zh, some zm =>
        if zh ≤ 23 && zm ≤ 59 then
          let off : Int := Int.ofNat (zh * 3600 + zm * 60)
          some (if sign == '+' then off else -off)
        else none
      | _, _ => none
    else none
  | _ => none

/-- `time.Parse(time.RFC3339, s)`: `YYYY-MM-DDTHH:MM:SS`, optional `.digits`
fraction (discarded — the service compares at second granularity), then a
zone suffix; all fields range-checked.  Yields the UTC instant in seconds. -/
def parseRFC3339 (str : String) : Option Int :=
  match str.data with
  | y1 :: y2 :: y3 :: y4 :: c1 :: m1 :: m2 :: c2 :: d1 :: d2 :: ct :: h1 :: h2 :: c3 ::
      mi1 :: mi2 :: c4 :: s1 :: s2 :: rest =>
    if c1 == '-' && c2 == '-' && ct == 'T' && c3 == ':' && c4 == ':' then
      match digits4 y1 y2 y3 y4, digits2 m1 m2, digits2 d1 d2,
            digits2 h1 h2, digits2 mi1 mi2, digits2 s1 s2 with
      | some y, some mo, some d, some h, some mi, some s =>
        if 1 ≤ mo && mo ≤ 12 && 1 ≤ d && d ≤ daysInMonth y mo
            && h ≤ 23 && mi ≤ 59 && s ≤ 59 then
          let afterFrac : Option (List Char) :=
            match rest with
            | '.' :: c :: more =>
              if (digitVal c).isSome then some (dropDigits more) else none
            | other => some other
          match afterFrac with
          | none => none
          | some tz =>
            match parseZone tz with
            | some off => some (mkTimestamp (Int.ofNat y) mo d h mi s - off)
            | none => none
        else none
      | _, _, _, _, _, _ => none
    else none
  | _ => none

/-- The dual-format date rule used by event creation and search: try RFC3339
first, then `"2006-01-02"`. -/
def parseEventDate (s : String) : Option Int :=
  match parseRFC3339 s with
  | some t => some t
  | none => parseYMD s

/-! ### Data model and store state -/

structure User where
  id : Nat
deriving DecidableEq, Repr

structure Event where
  id : Nat
  title : String
  description : String
  location : String
  date : Int
  organizerID : Nat
deriving DecidableEq, Repr

structure Task where
  id : Nat
  eventID : Nat
  title : String
  description : String
deriving DecidableEq, Repr

structure EventAttendee where
  eventID : Nat
  userID : Nat
  role : String
  status : String
deriving DecidableEq, Repr

/-- The relational store (rows in primary-key order) plus the next
auto-assigned event id. -/
structure AppState where
  users : List User
  events : List Event
  tasks : List Task
  attendees : List EventAttendee
  nextEventID : Nat
deriving DecidableEq, Repr

def findEvent (st : AppState) (id : Nat) : Option Event :=
  st.events.find? (fun e => e.id == id)

def findUser (st : AppState) (id : Nat) : Option User :=
  st.users.find? (fun u => u.id == id)

def findAttendee (st : AppState) (eid uid : Nat) : Option EventAttendee :=
  st.attendees.find? (fun a => a.eventID == eid && a.userID == uid)

def findOrganizerRow (st : AppState) (eid uid : Nat) : Option EventAttendee :=
  st.attendees.find? (fun a => a.eventID == eid && a.userID == uid && a.role == "organizer")

/-- Replace the first element satisfying `p` by its image under `f`
(`DB.Save` of the row returned by a `First` lookup). -/
def updateFirst (p : α → Bool) (f : α → α) : List α → List α
  | [] => []
  | x :: xs => if p x then f x :: xs else x :: updateFirst p f xs

/-! ### Event lifecycle handlers -/

structure CreateEventRequest where
  title : String
  description : String
  location : String
  date : String
deriving DecidableEq, Repr

/-- `CreateEvent` for an authenticated caller.  `binding:"required"` on
`Title` and `Date` rejects empty strings before any handler logic; the date
is parsed RFC3339-first then `YYYY-MM-DD`, must be strictly after `now`
(`eventDate.After(now)`), the event row is created with the trimmed title,
and the organizer's attendee row is added by a best-effort `FirstOrCreate`
whose outcome is discarded. -/
def createEvent (st : AppState) (now : Int) (userID : Nat) (body : CreateEventRequest) :
    Except ApiError Event × AppState :=
  if body.title == "" || body.date == "" then
    (.error (.validationError "invalid request"), st)
  else
    match parseEventDate body.date with
    | none => (.error (.validationError "invalid date format (use RFC3339 or YYYY-MM-DD)"), st)
    | some eventDate =>
      if eventDate ≤ now then
        (.error (.validationError "event date must be in the future"), st)
      else
        let ev : Event :=
          { id := st.nextEventID, title := goTrimSpace body.title,
            description := body.description, location := body.location,
            date := eventDate, organizerID := userID }
        let st1 := { st with events := st.events ++ [ev], nextEventID := st.nextEventID + 1 }
        let st2 :=
          match findAttendee st1 ev.id userID with
          | some _ => st1
          | none =>
            { st1 with attendees := st1.attendees ++ [⟨ev.id, userID, "organizer", ""⟩] }
        (.ok ev, st2)

/-- `GetInvitedEvents`: all events on which the caller holds any attendee row
with role `attendee` or `organizer`, ordered by date ascending (tasks
preloading omitted — not observed by any claim). -/
def getInvitedEvents (st : AppState) (uid : Nat) : List Event :=
  let atts := st.attendees.filter
    (fun a => a.userID == uid && (a.role == "attendee" || a.role == "organizer"))
  if atts.isEmpty then []
  else
    let ids := atts.map (fun a => a.eventID)
    List.insertionSort (fun a b => a.date ≤ b.date)
      (st.events.filter (fun e => ids.contains e.id))

/-- `DeleteEvent`.  Store-call sites for fault injection: 0 `DB.First(&ev)`;
1/2/3 the transaction's deletes of attendees, tasks and the event — a fault
at any of those aborts the whole transaction, leaving the store unchanged. -/
def deleteEvent (fault : Faults) (st : AppState) (callerID eventID : Nat) :
    Except ApiError Unit × AppState :=
  match dbFirst (fault 0) (findEvent st eventID) with
  | .error .recordNotFound => (.error (.notFound "event not found"), st)
  | .error (.other msg) => (.error (.internalError ("db error: " ++ msg)), st)
  | .ok ev =>
    if ev.organizerID != callerID then
      (.error (.forbidden "only organizer can delete the event"), st)
    else
      match dbWrite (fault 1) with
      | .error msg => (.error (.internalError ("delete failed: " ++ msg)), st)
      | .ok _ =>
        match dbWrite (fault 2) with
        | .error msg => (.error (.internalError ("delete failed: " ++ msg)), st)
        | .ok _ =>
          match dbWrite (fault 3) with
          | .error msg => (.error (.internalError ("delete failed: " ++ msg)), st)
          | .ok _ =>
            (.ok (),
             { st with
               events := st.events.filter (fun e => !(e.id == ev.id)),
               tasks := st.tasks.filter (fun t => !(t.eventID == ev.id)),
               attendees := st.attendees.filter (fun a => !(a.eventID == ev.id)) })

/-! ### Invitation and attendance handlers -/

structure InviteRequest where
  userID : Nat
  role : String
deriving DecidableEq, Repr

inductive InviteOutcome where
  | alreadyParticipant
  | invited (userID : Nat) (role : String)
deriving DecidableEq, Repr

/-- `InviteUser`.  Store-call sites: 0 `First(&ev)` (any error, not only
record-not-found, yields the 404 "event not found"); 1 the organizer-role
lookup for a non-owner caller (any error is treated as "no such row");
2 `First(&invitee)` (any error yields the 404 "invited user not found");
3 the duplicate check (an error is treated as "not yet a participant");
4 `Create(&newAtt)`. -/
def inviteUser (fault : Faults) (st : AppState) (callerID eventID : Nat)
    (body : InviteRequest) : Except ApiError InviteOutcome × AppState :=
  if body.userID == 0 || body.role == "" then
    (.error (.validationError "invalid body"), st)
  else
    let role := goToLower body.role
    if role != "attendee" && role != "organizer" then
      (.error (.validationError "role must be attendee or organizer"), st)
    else
      match dbFirst (fault 0) (findEvent st eventID) with
      | .error _ => (.error (.notFound "event not found"), st)
      | .ok ev =>
        let inviterIsOrganizer :=
          if ev.organizerID == callerID then true
          else
            match dbFirst (fault 1) (findOrganizerRow st eventID callerID) with
            | .ok _ => true
            | .error _ => false
        if !inviterIsOrganizer then
          (.error (.forbidden "only organizers can invite"), st)
        else
          match dbFirst (fault 2) (findUser st body.userID) with
          | .error _ => (.error (.notFound "invited user not found"), st)
          | .ok invitee =>
            match dbFirst (fault 3) (findAttendee st eventID invitee.id) with
            | .ok _ => (.ok .alreadyParticipant, st)
            | .error _ =>
              match dbWrite (fault 4) with
              | .error msg =>
                (.error (.internalError ("could not create invitation: " ++ msg)), st)
              | .ok _ =>
                (.ok (.invited invitee.id role),
                 { st with attendees := st.attendees ++ [⟨eventID, invitee.id, role, ""⟩] })

/-- `SetAttendance`.  Store-call sites: 0 `First(&ev)`; 1 the caller's
attendee-row lookup; 2 `Create(&att)` on the no-row branch; 3 `Save(&att)`
on the update branch.  The handler upserts: a missing row is created with
role `attendee`, an existing row gets only its status replaced. -/
def setAttendance (fault : Faults) (st : AppState) (callerID eventID : Nat)
    (status : String) : Except ApiError EventAttendee × AppState :=
  if status == "" then
    (.error (.validationError "invalid body"), st)
  else
    let normalized := normalizeStatus status
    if normalized != "Going" && normalized != "Maybe" && normalized != "Not Going" then
      (.error (.validationError "status must be one of: Going, Maybe, Not Going"), st)
    else
      match dbFirst (fault 0) (findEvent st eventID) with
      | .error .recordNotFound => (.error (.notFound "event not found"), st)
      | .error (.other msg) => (.error (.internalError ("db error: " ++ msg)), st)
      | .ok _ =>
        match dbFirst (fault 1) (findAttendee st eventID callerID) with
        | .error .recordNotFound =>
          let att : EventAttendee := ⟨eventID, callerID, "attendee", normalized⟩
          match dbWrite (fault 2) with
          | .error msg =>
            (.error (.internalError ("could not set attendance: " ++ msg)), st)
          | .ok _ => (.ok att, { st with attendees := st.attendees ++ [att] })
        | .error (.other msg) => (.error (.internalError ("db error: " ++ msg)), st)
        | .ok att0 =>
          match dbWrite (fault 3) with
          | .error msg =>
            (.error (.internalError ("could not update status: " ++ msg)), st)
          | .ok _ =>
            (.ok { att0 with status := normalized },
             { st with
               attendees := updateFirst
                 (fun a => a.eventID == eventID && a.userID == callerID)
                 (fun a => { a with status := normalized }) st.attendees })

/-! ### Search handler -/

structure SearchRequest where
  keyword : String
  startDate : String
  endDate : String
  role : String
  type : String
deriving DecidableEq, Repr

/-- A tagged entry of the flat search result list: `{type:"event", event:e}`
or `{type:"task", task:t, event:parent}`. -/
inductive SearchResult where
  | event (e : Event)
  | task (t : Task) (parent : Event)
deriving DecidableEq, Repr

/-- The `start_date` bound: absent when empty, otherwise dual-format parsed,
a parse failure being a 400. -/
def parseStartBound (s : String) : Except ApiError (Option Int) :=
  if s == "" then .ok none
  else
    match parseEventDate s with
    | some t => .ok (some t)
    | none => .error (.validationError "invalid start_date format")

/-- The `end_date` bound: absent when empty, otherwise dual-format parsed and
then extended by `23*time.Hour + 59*time.Minute + 59*time.Second` so that a
day-granularity end date is inclusive. -/
def parseEndBound (s : String) : Except ApiError (Option Int) :=
  if s == "" then .ok none
  else
    match parseEventDate s with
    | some t => .ok (some (t + 86399))
    | none => .error (.validationError "invalid end_date format")

/-- `date >= start AND date <= end`, each side open when the bound is absent. -/
def dateInRange (start? end? : Option Int) (d : Int) : Bool :=
  (match start? with | none => true | some s => s ≤ d) &&
  (match end? with | none => true | some en => d ≤ en)

def eventKeywordMatch (kw : String) (e : Event) : Bool :=
  kw == "" || ilike kw e.title || ilike kw e.description

def taskKeywordMatch (kw : String) (t : Task) (parent : Event) : Bool :=
  kw == "" || ilike kw t.title || ilike kw t.description
    || ilike kw parent.title || ilike kw parent.description

/-- `JOIN event_attendees ea ON ea.event_id = <key row> AND ea.user_id = uid
AND ea.role = 'attendee'`: one copy of each row per matching attendee row. -/
def joinAttendeeRows (st : AppState) (uid : Nat) (key : α → Nat) : List α → List α
  | [] => []
  | x :: rest =>
    (st.attendees.filter
      (fun a => a.eventID == key x && a.userID == uid && a.role == "attendee")).map
        (fun _ => x)
      ++ joinAttendeeRows st uid key rest

/-- Rows produced by the event branch of the search before ordering. -/
def searchEventRows (st : AppState) (uid : Nat) (kw : String)
    (start? end? : Option Int) (role : String) : List Event :=
  let base := st.events.filter
    (fun e => eventKeywordMatch kw e && dateInRange start? end? e.date)
  match role with
  | "" => base
  | "organizer" => base.filter (fun e => e.organizerID == uid)
  | _ => joinAttendeeRows st uid (fun e => e.id) base

/-- `tasks JOIN events ON events.id = tasks.event_id`: each task paired with
its parent event, orphan tasks dropped. -/
def taskEventJoin (st : AppState) : List Task → List (Task × Event)
  | [] => []
  | t :: rest =>
    match findEvent st t.eventID with
    | some ev => (t, ev) :: taskEventJoin st rest
    | none => taskEventJoin st rest

/-- Rows produced by the task branch of the search before ordering: keyword
against the task or its parent event, date and role filters against the
parent event. -/
def searchTaskRows (st : AppState) (uid : Nat) (kw : String)
    (start? end? : Option Int) (role : String) : List (Task × Event) :=
  let base := (taskEventJoin st st.tasks).filter
    (fun p => taskKeywordMatch kw p.1 p.2 && dateInRange start? end? p.2.date)
  match role with
  | "" => base
  | "organizer" => base.filter (fun p => p.2.organizerID == uid)
  | _ => joinAttendeeRows st uid (fun p => p.2.id) base

def sortEventsByDate (l : List Event) : List Event :=
  List.insertionSort (fun a b => a.date ≤ b.date) l

def sortTaskRowsByDate (l : List (Task × Event)) : List (Task × Event) :=
  List.insertionSort (fun p q => p.2.date ≤ q.2.date) l

/-- `SearchHandler` for an authenticated caller: an empty `type` defaults to
`both`; the date bounds are parsed up front; a role outside
`{"", "organizer", "attendee"}` is a 400 — but only when a branch that
consults the role actually runs; the result is the ordered event rows
followed by the ordered task rows, each tagged. -/
def searchHandler (st : AppState) (uid : Nat) (req : SearchRequest) :
    Except ApiError (List SearchResult) :=
  let ty := if req.type == "" then "both" else req.type
  match parseStartBound req.startDate with
  | .error e => .error e
  | .ok start? =>
    match parseEndBound req.endDate with
    | .error e => .error e
    | .ok end? =>
      let kw := goTrimSpace req.keyword
      let validRole := req.role == "" || req.role == "organizer" || req.role == "attendee"
      if (ty == "both" || ty == "event" || ty == "task") && !validRole then
        .error (.validationError "role must be 'organizer' or 'attendee'")
      else
        let evPart : List SearchResult :=
          if ty == "both" || ty == "event" then
            (sortEventsByDate (searchEventRows st uid kw start? end? req.role)).map
              SearchResult.event
          else []
        let taskPart : List SearchResult :=
          if ty == "both" || ty == "task" then
            (sortTaskRowsByDate (searchTaskRows st uid kw start? end? req.role)).map
              (fun p => SearchResult.task p.1 p.2)
          else []
        .ok (evPart ++ taskPart)

/-! ### Helper lemmas -/

theorem countP_updateFirst (p : α → Bool) (f : α → α)
    (hpf : ∀ a, p a = true → p (f a) = true) :
    ∀ l : List α, (updateFirst p f l).countP p = l.countP p := by
  intro l
  induction l with
  | nil => rfl
  | cons x xs ih =>
    by_cases hx : p x = true
    · simp [updateFirst, hx, List.countP_cons, hpf x hx]
    · simp [updateFirst, hx, List.countP_cons, ih]

theorem find?_updateFirst (p : α → Bool) (f : α → α) (b : α) (hfb : p (f b) = true) :
    ∀ l : List α, l.find? p = some b → (updateFirst p f l).find? p = some (f b) := by
  intro l
  induction l with
  | nil => intro h; cases h
  | cons x xs ih =>
    intro h
    by_cases hx : p x = true
    · rw [List.find?_cons_of_pos _ hx] at h
      cases h
      simp [updateFirst, hx, List.find?_cons_of_pos _ hfb]
    · rw [List.find?_cons_of_neg _ (by simpa using hx)] at h
      simp only [updateFirst, if_neg hx]
      rw [List.find?_cons_of_neg _ (by simpa using hx)]
      exact ih h

theorem mem_updateFirst_unique (p : α → Bool) (f : α → α) :
    ∀ l : List α, l.countP p ≤ 1 → ∀ a, a ∈ updateFirst p f l → p a = true →
      ∃ b, b ∈ l ∧ p b = true ∧ a = f b := by
  intro l
  induction l with
  | nil => intro _ a ha; cases ha
  | cons x xs ih =>
    intro hc a ha hpa
    by_cases hx : p x = true
    · simp only [updateFirst, if_pos hx] at ha
      rcases List.mem_cons.mp ha with h | h
      · exact ⟨x, List.mem_cons_self x xs, hx, h⟩
      · exfalso
        have h1 : 0 < xs.countP p := List.countP_pos_iff.mpr ⟨a, h, hpa⟩
        have h2 : (x :: xs).countP p = xs.countP p + 1 := by
          simp [List.countP_cons, hx]
        omega
    · simp only [updateFirst, if_neg hx] at ha
      rcases List.mem_cons.mp ha with h | h
      · exact absurd (h ▸ hpa) (by simpa using hx)
      · have hc' : xs.countP p ≤ 1 := by
          have : (x :: xs).countP p = xs.countP p := by
            simp [List.countP_cons, hx]
          omega
        obtain ⟨b, hb, hpb, hab⟩ := ih hc' a h hpa
        exact ⟨b, List.mem_cons_of_mem x hb, hpb, hab⟩

theorem mem_joinAttendeeRows (st : AppState) (uid : Nat) (key : α → Nat) :
    ∀ (l : List α) (y : α), y ∈ joinAttendeeRows st uid key l ↔
      y ∈ l ∧ ∃ a, a ∈ st.attendees ∧ a.eventID = key y ∧ a.userID = uid ∧
        a.role = "attendee" := by
  intro l y
  induction l with
  | nil => simp [joinAttendeeRows]
  | cons x rest ih =>
    simp only [joinAttendeeRows, List.mem_append, List.mem_map, List.mem_filter,
      Bool.and_eq_true, beq_iff_eq, ih, List.mem_cons]
    constructor
    · intro h
      aesop
    · intro h
      aesop

instance eventDateLeTotal : IsTotal Event fun a b => a.date ≤ b.date :=
  ⟨fun a b => Int.le_total a.date b.date⟩

instance eventDateLeTrans : IsTrans Event fun a b => a.date ≤ b.date :=
  ⟨fun _ _ _ h₁ h₂ => le_trans h₁ h₂⟩

instance taskRowDateLeTotal : IsTotal (Task × Event) fun p q => p.2.date ≤ q.2.date :=
  ⟨fun p q => Int.le_total p.2.date q.2.date⟩

instance taskRowDateLeTrans : IsTrans (Task × Event) fun p q => p.2.date ≤ q.2.date :=
  ⟨fun _ _ _ h₁ h₂ => le_trans h₁ h₂⟩

/-! ### Concrete fixtures for witnesses and counterexamples -/

def evParty : Event :=
  ⟨1, "Party", "fun", "home", mkTimestamp 2024 5 1 23 59 59, 7⟩

def evMeet : Event :=
  ⟨2, "Meet", "", "", mkTimestamp 2024 5 2 0 0 0, 7⟩

def taskCake : Task := ⟨1, 1, "Cake", ""⟩

def taskChairs : Task := ⟨2, 2, "Chairs", ""⟩

/-- User 7 organizes two events, one dated 2024-05-01T23:59:59 and one dated
2024-05-02T00:00:00, each with one task; user 2 exists and holds no rows. -/
def baseState : AppState :=
  ⟨[⟨7⟩, ⟨2⟩], [evParty, evMeet], [taskCake, taskChairs],
   [⟨1, 7, "organizer", ""⟩], 3⟩

def evGala : Event := ⟨5, "Gala", "", "", mkTimestamp 2024 6 1 0 0 0, 9⟩

/-- User 9 is organizer-only on event 5: owner and holder of an
organizer-role attendee row, with no attendee-role row. -/
def organizerOnlyState : AppState :=
  ⟨[⟨9⟩], [evGala], [], [⟨5, 9, "organizer", ""⟩], 6⟩

/-! ### Claim theorems -/

/-- C1: for every event-creation request by an authenticated caller, the date
string is parsed first as RFC3339 and, if that fails, as "YYYY-MM-DD"; if
neither format parses, or the parsed date is less than or equal to the
current time, creation fails with a ValidationError; if the parsed date is
strictly in the future, creation succeeds and the returned Event's Date
equals the parsed date. -/
theorem createEvent_date_rule (st : AppState) (now : Int) (uid : Nat)
    (body : CreateEventRequest) (hT : body.title ≠ "") (hD : body.date ≠ "") :
    (parseEventDate body.date =
       (match parseRFC3339 body.date with
        | some t => some t
        | none => parseYMD body.date)) ∧
    (parseEventDate body.date = none →
       ∃ m, createEvent st now uid body = (.error (.validationError m), st)) ∧
    (∀ d, parseEventDate body.date = some d → d ≤ now →
       ∃ m, createEvent st now uid body = (.error (.validationError m), st)) ∧
    (∀ d, parseEventDate body.date = some d → now < d →
       ∃ ev st', createEvent st now uid body = (.ok ev, st') ∧ ev.date = d) := by
  have hT' : (body.title == "") = false := by simp [hT]
  have hD' : (body.date == "") = false := by simp [hD]
  refine ⟨rfl, ?_, ?_, ?_⟩
  · intro h
    exact ⟨"invalid date format (use RFC3339 or YYYY-MM-DD)",
      by simp [createEvent, hT', hD', h]⟩
  · intro d hd hle
    exact ⟨"event date must be in the future", by simp [createEvent, hT', hD', hd, hle]⟩
  · intro d hd hlt
    refine ⟨{ id := st.nextEventID, title := goTrimSpace body.title,
              description := body.description, location := body.location,
              date := d, organizerID := uid }, (createEvent st now uid body).2, ?_, rfl⟩
    have h1 : (createEvent st now uid body).1 =
        .ok { id := st.nextEventID, title := goTrimSpace body.title,
              description := body.description, location := body.location,
              date := d, organizerID := uid } := by
      simp [createEvent, hT', hD', hd, not_le.mpr hlt]
    exact Prod.ext h1 rfl

theorem createEvent_date_rule_witness :
    ∃ ev st', createEvent baseState 0 7 ⟨"Picnic", "", "", "2024-05-01"⟩ = (.ok ev, st') ∧
      ev.date = 1714521600 :=
  (createEvent_date_rule baseState 0 7 ⟨"Picnic", "", "", "2024-05-01"⟩
    (by decide) (by decide)).2.2.2 1714521600 (by decide) (by decide)

/-- C3: the SetAttendance status input is normalized by trimming,
lower-casing, then title-casing per word; the call proceeds only if the
normalized value is exactly "Going", "Maybe", or "Not Going", otherwise it
fails with a ValidationError; in particular "going", "GOING", "  Going  ",
"not going" and "maybe" each normalize to a member of
{"Going", "Not Going", "Maybe"}. -/
theorem setAttendance_status_rule :
    (normalizeStatus "going" = "Going" ∧ normalizeStatus "GOING" = "Going" ∧
     normalizeStatus "  Going  " = "Going" ∧ normalizeStatus "not going" = "Not Going" ∧
     normalizeStatus "maybe" = "Maybe") ∧
    (∀ (fault : Faults) (st : AppState) (uid eid : Nat) (s : String),
       normalizeStatus s ≠ "Going" → normalizeStatus s ≠ "Maybe" →
       normalizeStatus s ≠ "Not Going" →
       ∃ m, (setAttendance fault st uid eid s).1 = .error (.validationError m)) := by
  constructor
  · exact ⟨by decide, by decide, by decide, by decide, by decide⟩
  · intro fault st uid eid s h1 h2 h3
    by_cases hs : s = ""
    · exact ⟨"invalid body", by simp [setAttendance, hs]⟩
    · exact ⟨"status must be one of: Going, Maybe, Not Going",
        by simp [setAttendance, hs, h1, h2, h3]⟩

theorem setAttendance_status_rule_witness :
    ∃ m, (setAttendance noFault baseState 2 1 "bogus").1 = .error (.validationError m) :=
  setAttendance_status_rule.2 noFault baseState 2 1 "bogus" (by decide) (by decide) (by decide)

/-- C5: DeleteEvent yields NotFound when the event is absent; it yields
Forbidden with the store unchanged whenever the caller differs from the
event's OrganizerID, regardless of any organizer-role attendee row; on
success the event's attendees, tasks and the event itself are all removed in
one transaction; a failure of any transaction step aborts the whole
transaction with an InternalError and the store unchanged. -/
theorem deleteEvent_rules (st : AppState) (caller eid : Nat) :
    (findEvent st eid = none →
       deleteEvent noFault st caller eid = (.error (.notFound "event not found"), st)) ∧
    (∀ ev, findEvent st eid = some ev → ev.organizerID ≠ caller →
       deleteEvent noFault st caller eid =
         (.error (.forbidden "only organizer can delete the event"), st)) ∧
    (∀ ev, findEvent st eid = some ev → ev.organizerID = caller →
       deleteEvent noFault st caller eid =
         (.ok (),
          { st with
            events := st.events.filter (fun e => !(e.id == ev.id)),
            tasks := st.tasks.filter (fun t => !(t.eventID == ev.id)),
            attendees := st.attendees.filter (fun a => !(a.eventID == ev.id)) })) ∧
    (∀ ev msg k, findEvent st eid = some ev → ev.organizerID = caller →
       (k = 1 ∨ k = 2 ∨ k = 3) →
       deleteEvent (faultAt k msg) st caller eid =
         (.error (.internalError ("delete failed: " ++ msg)), st)) := by
  refine ⟨?_, ?_, ?_, ?_⟩
  · intro h
    simp [deleteEvent, dbFirst, noFault, h]
  · intro ev hev hne
    simp [deleteEvent, dbFirst, noFault, hev, hne]
  · intro ev hev heq
    simp [deleteEvent, dbFirst, dbWrite, noFault, hev, heq]
  · intro ev msg k hev heq hk
    rcases hk with h | h | h <;> subst h <;>
      simp [deleteEvent, dbFirst, dbWrite, faultAt, hev, heq]

theorem deleteEvent_rules_witness :
    deleteEvent noFault baseState 7 1 =
      (.ok (),
       { baseState with
         events := baseState.events.filter (fun e => !(e.id == evParty.id)),
         tasks := baseState.tasks.filter (fun t => !(t.eventID == evParty.id)),
         attendees := baseState.attendees.filter (fun a => !(a.eventID == evParty.id)) }) :=
  (deleteEvent_rules baseState 7 1).2.2.1 evParty (by decide) (by decide)

/-- C10 counterexample: a request whose type is "xyz" but whose start_date is
malformed yields a ValidationError, not a successful empty result, so the
claim does not hold for every request with an unknown type. -/
theorem search_unknown_type_counterexample :
    searchHandler baseState 7 ⟨"", "bad", "", "", "xyz"⟩ =
      .error (.validationError "invalid start_date format") := rfl

/-- C10 (amended): for every authenticated search request whose type is none
of "", "event", "task" or "both" and whose start_date and end_date are each
absent or well-formed, neither the event branch nor the task branch runs and
the handler returns success with an empty result list — in particular the
role value is never validated on this path. -/
theorem search_unknown_type_empty (st : AppState) (uid : Nat) (req : SearchRequest)
    (h1 : req.type ≠ "") (h2 : req.type ≠ "event") (h3 : req.type ≠ "task")
    (h4 : req.type ≠ "both")
    (hs : req.startDate = "" ∨ (parseEventDate req.startDate).isSome)
    (he : req.endDate = "" ∨ (parseEventDate req.endDate).isSome) :
    searchHandler st uid req = .ok [] := by
  obtain ⟨so, hso⟩ : ∃ o, parseStartBound req.startDate = .ok o := by
    rcases hs with h | h
    · exact ⟨none, by simp [parseStartBound, h]⟩
    · obtain ⟨t, ht⟩ := Option.isSome_iff_exists.mp h
      by_cases hz : req.startDate = ""
      · exact ⟨none, by simp [parseStartBound, hz]⟩
      · exact ⟨some t, by simp [parseStartBound, hz, ht]⟩
  obtain ⟨eo, heo⟩ : ∃ o, parseEndBound req.endDate = .ok o := by
    rcases he with h | h
    · exact ⟨none, by simp [parseEndBound, h]⟩
    · obtain ⟨t, ht⟩ := Option.isSome_iff_exists.mp h
      by_cases hz : req.endDate = ""
      · exact ⟨none, by simp [parseEndBound, hz]⟩
      · exact ⟨some (t + 86399), by simp [parseEndBound, hz, ht]⟩
  simp [searchHandler, hso, heo, h1, h2, h3, h4]

/-- Helper: an authorized invite for a user who already holds any attendee
row on the event returns the "already a participant" success and writes
nothing. -/
theorem inviteUser_already (st : AppState) (caller eid : Nat) (body : InviteRequest)
    (hUid : (body.userID == 0) = false)
    (hRole : body.role = "attendee" ∨ body.role = "organizer")
    (ev : Event) (hEv : findEvent st eid = some ev)
    (hAuth : ev.organizerID = caller ∨ (findOrganizerRow st eid caller).isSome)
    (u : User) (hU : findUser st body.userID = some u)
    (ex : EventAttendee) (hex : findAttendee st eid u.id = some ex) :
    inviteUser noFault st caller eid body = (.ok .alreadyParticipant, st) := by
  have e1 : goToLower "attendee" = "attendee" := by decide
  have e2 : goToLower "organizer" = "organizer" := by decide
  have f1 : (("attendee" : String) == "") = false := by decide
  have f2 : (("organizer" : String) == "") = false := by decide
  have f3 : (("attendee" : String) != "attendee") = false := by decide
  have f4 : (("organizer" : String) != "attendee") = true := by decide
  have f5 : (("organizer" : String) != "organizer") = false := by decide
  rcases hRole with hr | hr <;>
    rcases hAuth with ha | ha
  · simp [inviteUser, hUid, hr, e1, f1, f3, noFault, dbFirst, hEv, hU, hex, ha]
  · obtain ⟨r, hrow⟩ := Option.isSome_iff_exists.mp ha
    by_cases hoc : ev.organizerID = caller
    · simp [inviteUser, hUid, hr, e1, f1, f3, noFault, dbFirst, hEv, hU, hex, hoc]
    · simp [inviteUser, hUid, hr, e1, f1, f3, noFault, dbFirst, hEv, hU, hex, hoc, hrow]
  · simp [inviteUser, hUid, hr, e2, f2, f4, f5, noFault, dbFirst, hEv, hU, hex, ha]
  · obtain ⟨r, hrow⟩ := Option.isSome_iff_exists.mp ha
    by_cases hoc : ev.organizerID = caller
    · simp [inviteUser, hUid, hr, e2, f2, f4, f5, noFault, dbFirst, hEv, hU, hex, hoc]
    · simp [inviteUser, hUid, hr, e2, f2, f4, f5, noFault, dbFirst, hEv, hU, hex, hoc, hrow]

/-- Helper: an authorized invite for a user with no attendee row on the
event appends exactly one row carrying the requested role and empty status. -/
theorem inviteUser_fresh (st : AppState) (caller eid : Nat) (body : InviteRequest)
    (hUid : (body.userID == 0) = false)
    (hRole : body.role = "attendee" ∨ body.role = "organizer")
    (ev : Event) (hEv : findEvent st eid = some ev)
    (hAuth : ev.organizerID = caller ∨ (findOrganizerRow st eid caller).isSome)
    (u : User) (hU : findUser st body.userID = some u)
    (hex : findAttendee st eid u.id = none) :
    inviteUser noFault st caller eid body =
      (.ok (.invited u.id body.role),
       { st with attendees := st.attendees ++ [⟨eid, u.id, body.role, ""⟩] }) := by
  have e1 : goToLower "attendee" = "attendee" := by decide
  have e2 : goToLower "organizer" = "organizer" := by decide
  have f1 : (("attendee" : String) == "") = false := by decide
  have f2 : (("organizer" : String) == "") = false := by decide
  have f3 : (("attendee" : String) != "attendee") = false := by decide
  have f4 : (("organizer" : String) != "attendee") = true := by decide
  have f5 : (("organizer" : String) != "organizer") = false := by decide
  rcases hRole with hr | hr <;>
    rcases hAuth with ha | ha
  · simp [inviteUser, hUid, hr, e1, f1, f3, noFault, dbFirst, dbWrite, hEv, hU, hex, ha]
  · obtain ⟨r, hrow⟩ := Option.isSome_iff_exists.mp ha
    by_cases hoc : ev.organizerID = caller
    · simp [inviteUser, hUid, hr, e1, f1, f3, noFault, dbFirst, dbWrite, hEv, hU, hex, hoc]
    · simp [inviteUser, hUid, hr, e1, f1, f3, noFault, dbFirst, dbWrite, hEv, hU, hex, hoc,
        hrow]
  · simp [inviteUser, hUid, hr, e2, f2, f4, f5, noFault, dbFirst, dbWrite, hEv, hU, hex, ha]
  · obtain ⟨r, hrow⟩ := Option.isSome_iff_exists.mp ha
    by_cases hoc : ev.organizerID = caller
    · simp [inviteUser, hUid, hr, e2, f2, f4, f5, noFault, dbFirst, dbWrite, hEv, hU, hex, hoc]
    · simp [inviteUser, hUid, hr, e2, f2, f4, f5, noFault, dbFirst, dbWrite, hEv, hU, hex, hoc,
        hrow]

/-- C2: for every authorized invite of an existing invitee, if the invitee
has no prior EventAttendee row for the event then exactly one row
{EventID, invitee, role, Status=""} is appended; if the invitee already has
any row for the event the call returns the "already a participant" success
and performs no write; a second identical invite call therefore adds no new
row. -/
theorem inviteUser_idempotent (st : AppState) (caller eid : Nat) (body : InviteRequest)
    (hUid : body.userID ≠ 0)
    (hRole : body.role = "attendee" ∨ body.role = "organizer")
    (ev : Event) (hEv : findEvent st eid = some ev)
    (hAuth : ev.organizerID = caller ∨ (findOrganizerRow st eid caller).isSome)
    (u : User) (hU : findUser st body.userID = some u) :
    (findAttendee st eid u.id = none →
       inviteUser noFault st caller eid body =
         (.ok (.invited u.id body.role),
          { st with attendees := st.attendees ++ [⟨eid, u.id, body.role, ""⟩] })) ∧
    ((findAttendee st eid u.id).isSome →
       inviteUser noFault st caller eid body = (.ok .alreadyParticipant, st)) ∧
    (inviteUser noFault ((inviteUser noFault st caller eid body).2) caller eid body =
       (.ok .alreadyParticipant, (inviteUser noFault st caller eid body).2)) := by
  have hUid' : (body.userID == 0) = false := by simp [hUid]
  refine ⟨?_, ?_, ?_⟩
  · intro hex
    exact inviteUser_fresh st caller eid body hUid' hRole ev hEv hAuth u hU hex
  · intro hA
    obtain ⟨ex, hex⟩ := Option.isSome_iff_exists.mp hA
    exact inviteUser_already st caller eid body hUid' hRole ev hEv hAuth u hU ex hex
  · cases hA : findAttendee st eid u.id with
    | some ex =>
      rw [inviteUser_already st caller eid body hUid' hRole ev hEv hAuth u hU ex hA]
      exact inviteUser_already st caller eid body hUid' hRole ev hEv hAuth u hU ex hA
    | none =>
      rw [inviteUser_fresh st caller eid body hUid' hRole ev hEv hAuth u hU hA]
      set row : EventAttendee := ⟨eid, u.id, body.role, ""⟩ with hrowdef
      have hEv1 : findEvent { st with attendees := st.attendees ++ [row] } eid = some ev := hEv
      have hU1 : findUser { st with attendees := st.attendees ++ [row] } body.userID =
          some u := hU
      have hex1 : findAttendee { st with attendees := st.attendees ++ [row] } eid u.id =
          some row := by
        unfold findAttendee at hA ⊢
        rw [List.find?_append, hA]
        simp
      have hAuth1 : ev.organizerID = caller ∨
          (findOrganizerRow { st with attendees := st.attendees ++ [row] } eid
            caller).isSome := by
        rcases hAuth with h | h
        · exact Or.inl h
        · obtain ⟨r, hr⟩ := Option.isSome_iff_exists.mp h
          refine Or.inr ?_
          unfold findOrganizerRow at hr ⊢
          rw [List.find?_append, hr]
          simp
      exact inviteUser_already _ caller eid body hUid' hRole ev hEv1 hAuth1 u hU1 row hex1

theorem inviteUser_idempotent_witness :
    inviteUser noFault baseState 7 1 ⟨2, "attendee"⟩ =
      (.ok (.invited 2 "attendee"),
       { baseState with attendees := baseState.attendees ++ [⟨1, 2, "attendee", ""⟩] }) :=
  (inviteUser_idempotent baseState 7 1 ⟨2, "attendee"⟩ (by decide) (Or.inl rfl) evParty
    (by decide) (Or.inl (by decide)) ⟨2⟩ (by decide)).1 (by decide)

/-- C9 counterexample: in InviteUser a store-layer failure of the event
lookup (not a record-not-found) is reported as NotFound, not InternalError:
in a state where event 1 and user 2 both exist, injecting a store failure
into the `First(&ev)` call yields the 404 "event not found". -/
theorem inviteUser_store_failure_not_internal :
    inviteUser (faultAt 0 "connection refused") baseState 7 1 ⟨2, "attendee"⟩ =
      (.error (.notFound "event not found"), baseState) := rfl

theorem goToLowerAttendee : goToLower "attendee" = "attendee" := by decide

/-- C9 (amended): in DeleteEvent and SetAttendance every injected store
failure is reported as InternalError with the underlying message attached
(the event lookup's "db error", the transaction's "delete failed", the
attendance branches' messages), and InviteUser reports its insert failure as
InternalError — but InviteUser maps a failing event lookup or invitee lookup
to NotFound, treats a failing organizer-role lookup as the row being absent
(yielding Forbidden for a non-owner), and treats a failing duplicate check
as the invitee not yet participating (so the insert still runs); no retry
occurs anywhere. -/
theorem store_failure_mapping (st : AppState) (msg : String) (caller eid : Nat) :
    (deleteEvent (faultAt 0 msg) st caller eid =
       (.error (.internalError ("db error: " ++ msg)), st)) ∧
    (∀ ev k, findEvent st eid = some ev → ev.organizerID = caller →
       (k = 1 ∨ k = 2 ∨ k = 3) →
       deleteEvent (faultAt k msg) st caller eid =
         (.error (.internalError ("delete failed: " ++ msg)), st)) ∧
    (∀ s, normalizeStatus s = "Going" →
       setAttendance (faultAt 0 msg) st caller eid s =
         (.error (.internalError ("db error: " ++ msg)), st)) ∧
    (∀ s ev, normalizeStatus s = "Going" → findEvent st eid = some ev →
       setAttendance (faultAt 1 msg) st caller eid s =
         (.error (.internalError ("db error: " ++ msg)), st)) ∧
    (∀ s ev, normalizeStatus s = "Going" → findEvent st eid = some ev →
       findAttendee st eid caller = none →
       setAttendance (faultAt 2 msg) st caller eid s =
         (.error (.internalError ("could not set attendance: " ++ msg)), st)) ∧
    (∀ s ev a, normalizeStatus s = "Going" → findEvent st eid = some ev →
       findAttendee st eid caller = some a →
       setAttendance (faultAt 3 msg) st caller eid s =
         (.error (.internalError ("could not update status: " ++ msg)), st)) ∧
    (∀ uid, uid ≠ 0 →
       inviteUser (faultAt 0 msg) st caller eid ⟨uid, "attendee"⟩ =
         (.error (.notFound "event not found"), st)) ∧
    (∀ uid ev, uid ≠ 0 → findEvent st eid = some ev → ev.organizerID ≠ caller →
       inviteUser (faultAt 1 msg) st caller eid ⟨uid, "attendee"⟩ =
         (.error (.forbidden "only organizers can invite"), st)) ∧
    (∀ uid ev, uid ≠ 0 → findEvent st eid = some ev → ev.organizerID = caller →
       inviteUser (faultAt 2 msg) st caller eid ⟨uid, "attendee"⟩ =
         (.error (.notFound "invited user not found"), st)) ∧
    (∀ uid ev u, uid ≠ 0 → findEvent st eid = some ev → ev.organizerID = caller →
       findUser st uid = some u →
       inviteUser (faultAt 3 msg) st caller eid ⟨uid, "attendee"⟩ =
         (.ok (.invited u.id "attendee"),
          { st with attendees := st.attendees ++ [⟨eid, u.id, "attendee", ""⟩] })) ∧
    (∀ uid ev u, uid ≠ 0 → findEvent st eid = some ev → ev.organizerID = caller →
       findUser st uid = some u → findAttendee st eid u.id = none →
       inviteUser (faultAt 4 msg) st caller eid ⟨uid, "attendee"⟩ =
         (.error (.internalError ("could not create invitation: " ++ msg)), st)) := by
  have f1 : (("attendee" : String) == "") = false := by decide
  have f3 : (("attendee" : String) != "attendee") = false := by decide
  have f6 : (("Going" : String) != "Going") = false := by decide
  have statusNe : ∀ s : String, normalizeStatus s = "Going" → s ≠ "" := by
    intro s hv h
    rw [h] at hv
    exact absurd hv (by decide)
  refine ⟨?_, ?_, ?_, ?_, ?_, ?_, ?_, ?_, ?_, ?_, ?_⟩
  · simp [deleteEvent, dbFirst, faultAt]
  · intro ev k hEv heq hk
    rcases hk with h | h | h <;> subst h <;>
      simp [deleteEvent, dbFirst, dbWrite, faultAt, hEv, heq]
  · intro s hv
    simp [setAttendance, statusNe s hv, hv, f6, dbFirst, faultAt]
  · intro s ev hv hEv
    simp [setAttendance, statusNe s hv, hv, f6, dbFirst, faultAt, hEv]
  · intro s ev hv hEv hA
    simp [setAttendance, statusNe s hv, hv, f6, dbFirst, dbWrite, faultAt, hEv, hA]
  · intro s ev a hv hEv hA
    simp [setAttendance, statusNe s hv, hv, f6, dbFirst, dbWrite, faultAt, hEv, hA]
  · intro uid huid
    simp [inviteUser, huid, f1, f3, dbFirst, faultAt, goToLowerAttendee]
  · intro uid ev huid hEv hne
    simp [inviteUser, huid, f1, f3, dbFirst, faultAt, hEv, hne, goToLowerAttendee]
  · intro uid ev huid hEv heq
    simp [inviteUser, huid, f1, f3, dbFirst, faultAt, hEv, heq, goToLowerAttendee]
  · intro uid ev u huid hEv heq hU
    simp [inviteUser, huid, f1, f3, dbFirst, dbWrite, faultAt, hEv, heq, hU,
      goToLowerAttendee]
  · intro uid ev u huid hEv heq hU hA
    simp [inviteUser, huid, f1, f3, dbFirst, dbWrite, faultAt, hEv, heq, hU, hA,
      goToLowerAttendee]

theorem store_failure_mapping_witness :
    deleteEvent (faultAt 1 "disk full") baseState 7 1 =
      (.error (.internalError ("delete failed: " ++ "disk full")), baseState) :=
  (store_failure_mapping baseState "disk full" 7 1).2.1 evParty 1 (by decide) (by decide)
    (Or.inl rfl)

/-- C4: for every SetAttendance with a valid status on an existing event,
if the caller has no attendee row for the event then exactly one row
{EventID, caller, Role="attendee", Status=normalized} is appended; if a row
exists then only its Status field is replaced (the row is updated in place,
role untouched); and, starting from a store satisfying the one-row-per-pair
invariant, repeating the call with the same status leaves exactly one row
for (event, caller), holding the latest status. -/
theorem setAttendance_upsert (st : AppState) (uid eid : Nat) (s : String)
    (hValid : normalizeStatus s = "Going" ∨ normalizeStatus s = "Maybe" ∨
      normalizeStatus s = "Not Going")
    (ev : Event) (hEv : findEvent st eid = some ev) :
    (findAttendee st eid uid = none →
       setAttendance noFault st uid eid s =
         (.ok ⟨eid, uid, "attendee", normalizeStatus s⟩,
          { st with attendees :=
              st.attendees ++ [⟨eid, uid, "attendee", normalizeStatus s⟩] })) ∧
    (∀ a, findAttendee st eid uid = some a →
       setAttendance noFault st uid eid s =
         (.ok { a with status := normalizeStatus s },
          { st with attendees :=
              (updateFirst (fun x => x.eventID == eid && x.userID == uid)
                (fun x => { x with status := normalizeStatus s }) st.attendees) })) ∧
    (st.attendees.countP (fun a => a.eventID == eid && a.userID == uid) ≤ 1 →
       (((setAttendance noFault ((setAttendance noFault st uid eid s).2) uid eid
           s).2).attendees.countP (fun a => a.eventID == eid && a.userID == uid) = 1 ∧
        ∀ a, a ∈ ((setAttendance noFault ((setAttendance noFault st uid eid s).2) uid eid
            s).2).attendees →
          (a.eventID == eid && a.userID == uid) = true → a.status = normalizeStatus s)) := by
  have g1 : (("Going" : String) != "Going") = false := by decide
  have g2 : (("Maybe" : String) != "Going") = true := by decide
  have g3 : (("Maybe" : String) != "Maybe") = false := by decide
  have g4 : (("Not Going" : String) != "Going") = true := by decide
  have g5 : (("Not Going" : String) != "Maybe") = true := by decide
  have g6 : (("Not Going" : String) != "Not Going") = false := by decide
  have hs : s ≠ "" := by
    rcases hValid with h | h | h <;>
      (intro he; rw [he] at h; exact absurd h (by decide))
  have hcond : ((normalizeStatus s != "Going" && normalizeStatus s != "Maybe") &&
      normalizeStatus s != "Not Going") = false := by
    rcases hValid with h | h | h <;> simp [h, g1, g2, g3, g4, g5, g6]
  have hnone : ∀ st' : AppState, (findEvent st' eid).isSome →
      findAttendee st' eid uid = none →
      setAttendance noFault st' uid eid s =
        (.ok ⟨eid, uid, "attendee", normalizeStatus s⟩,
         { st' with attendees :=
             st'.attendees ++ [⟨eid, uid, "attendee", normalizeStatus s⟩] }) := by
    intro st' hev' hA
    obtain ⟨e', he'⟩ := Option.isSome_iff_exists.mp hev'
    simp [setAttendance, hs, hcond, noFault, dbFirst, dbWrite, he', hA]
  have hsome : ∀ st' : AppState, (findEvent st' eid).isSome →
      ∀ a, findAttendee st' eid uid = some a →
      setAttendance noFault st' uid eid s =
        (.ok { a with status := normalizeStatus s },
         { st' with attendees :=
             (updateFirst (fun x => x.eventID == eid && x.userID == uid)
               (fun x => { x with status := normalizeStatus s }) st'.attendees) }) := by
    intro st' hev' a hA
    obtain ⟨e', he'⟩ := Option.isSome_iff_exists.mp hev'
    simp [setAttendance, hs, hcond, noFault, dbFirst, dbWrite, he', hA]
  have hEvSome : (findEvent st eid).isSome := Option.isSome_iff_exists.mpr ⟨ev, hEv⟩
  have hpf : ∀ a : EventAttendee,
      (a.eventID == eid && a.userID == uid) = true →
      (({ a with status := normalizeStatus s } : EventAttendee).eventID == eid &&
        ({ a with status := normalizeStatus s } : EventAttendee).userID == uid) = true :=
    fun _ h => h
  have hprow : ((⟨eid, uid, "attendee", normalizeStatus s⟩ : EventAttendee).eventID == eid &&
      (⟨eid, uid, "attendee", normalizeStatus s⟩ : EventAttendee).userID == uid) = true := by
    simp
  refine ⟨hnone st hEvSome, fun a hA => hsome st hEvSome a hA, ?_⟩
  intro hle
  cases hA : findAttendee st eid uid with
  | none =>
    rw [hnone st hEvSome hA]
    dsimp only
    have hA1 : findAttendee
        { st with attendees :=
            st.attendees ++ [⟨eid, uid, "attendee", normalizeStatus s⟩] } eid uid =
        some ⟨eid, uid, "attendee", normalizeStatus s⟩ := by
      unfold findAttendee at hA ⊢
      rw [List.find?_append, hA]
      simp [hprow]
    have hEvSome1 : (findEvent
        { st with attendees :=
            st.attendees ++ [⟨eid, uid, "attendee", normalizeStatus s⟩] } eid).isSome :=
      hEvSome
    rw [hsome _ hEvSome1 _ hA1]
    dsimp only
    have hc0 : st.attendees.countP (fun a => a.eventID == eid && a.userID == uid) = 0 :=
      List.countP_eq_zero.mpr (List.find?_eq_none.mp hA)
    have hc1 : List.countP (fun a : EventAttendee => a.eventID == eid && a.userID == uid)
        (st.attendees ++ [⟨eid, uid, "attendee", normalizeStatus s⟩]) = 1 := by
      rw [List.countP_append, hc0]
      simp [List.countP_cons, hprow]
    constructor
    · rw [countP_updateFirst _ _ hpf]
      exact hc1
    · intro a ha hpa
      obtain ⟨b, _, _, hab⟩ :=
        mem_updateFirst_unique (fun x => x.eventID == eid && x.userID == uid)
          (fun x => { x with status := normalizeStatus s })
          (st.attendees ++ [⟨eid, uid, "attendee", normalizeStatus s⟩])
          (le_of_eq hc1) a ha hpa
      rw [hab]
  | some a0 =>
    rw [hsome st hEvSome a0 hA]
    dsimp only
    have hA' : st.attendees.find? (fun a => a.eventID == eid && a.userID == uid) =
        some a0 := hA
    have hp0 : (a0.eventID == eid && a0.userID == uid) = true := by
      have h := List.find?_some hA'
      exact h
    have hcge : 0 < st.attendees.countP (fun a => a.eventID == eid && a.userID == uid) :=
      List.countP_pos_iff.mpr ⟨a0, List.mem_of_find?_eq_some hA', hp0⟩
    have hc1 : st.attendees.countP (fun a => a.eventID == eid && a.userID == uid) = 1 := by
      omega
    have hA1 : findAttendee
        { st with attendees :=
            (updateFirst (fun x => x.eventID == eid && x.userID == uid)
              (fun x => { x with status := normalizeStatus s }) st.attendees) } eid uid =
        some { a0 with status := normalizeStatus s } :=
      find?_updateFirst _ _ a0 (hpf a0 hp0) st.attendees hA'
    have hEvSome1 : (findEvent
        { st with attendees :=
            (updateFirst (fun x => x.eventID == eid && x.userID == uid)
              (fun x => { x with status := normalizeStatus s }) st.attendees) } eid).isSome :=
      hEvSome
    rw [hsome _ hEvSome1 _ hA1]
    dsimp only
    have hcu : (updateFirst (fun x => x.eventID == eid && x.userID == uid)
        (fun x => { x with status := normalizeStatus s }) st.attendees).countP
          (fun a => a.eventID == eid && a.userID == uid) = 1 := by
      rw [countP_updateFirst _ _ hpf]
      exact hc1
    constructor
    · rw [countP_updateFirst _ _ hpf]
      exact hcu
    · intro a ha hpa
      obtain ⟨b, _, _, hab⟩ :=
        mem_updateFirst_unique (fun x => x.eventID == eid && x.userID == uid)
          (fun x => { x with status := normalizeStatus s })
          (updateFirst (fun x => x.eventID == eid && x.userID == uid)
            (fun x => { x with status := normalizeStatus s }) st.attendees)
          (le_of_eq hcu) a ha hpa
      rw [hab]

theorem setAttendance_upsert_witness :
    setAttendance noFault baseState 2 1 "going" =
      (.ok ⟨1, 2, "attendee", "Going"⟩,
       { baseState with attendees := baseState.attendees ++ [⟨1, 2, "attendee", "Going"⟩] }) := by
  have h := (setAttendance_upsert baseState 2 1 "going" (Or.inl (by decide)) evParty
    (by decide)).1 (by decide)
  simpa using h

/-- C6: for every search request with a non-empty end_date that parses
(RFC3339 or "YYYY-MM-DD"), the effective upper date bound of the filters is
23:59:59 of the parsed day (parsed value + 86399 seconds); consequently a
search with end_date "2024-05-01" includes the event dated exactly
2024-05-01T23:59:59 together with its task and excludes the event dated
2024-05-02T00:00:00 and its task. -/
theorem search_endDate_inclusive (st : AppState) (uid : Nat) (req : SearchRequest)
    (t : Int) (hEnd : parseEventDate req.endDate = some t)
    (hType : req.type = "event") (hRole : req.role = "") (hStart : req.startDate = "")
    (hKw : req.keyword = "") :
    (∃ rs, searchHandler st uid req = .ok rs ∧
       ∀ e : Event, (SearchResult.event e ∈ rs ↔ e ∈ st.events ∧ e.date ≤ t + 86399)) ∧
    (searchHandler baseState 7 ⟨"", "", "2024-05-01", "", "both"⟩ =
       .ok [SearchResult.event evParty, SearchResult.task taskCake evParty]) := by
  constructor
  · have hne : req.endDate ≠ "" := by
      intro h
      have hz : parseEventDate "" = none := by decide
      rw [h, hz] at hEnd
      exact Option.noConfusion hEnd
    have hS : parseStartBound req.startDate = .ok none := by
      simp [parseStartBound, hStart]
    have hE : parseEndBound req.endDate = .ok (some (t + 86399)) := by
      simp [parseEndBound, hne, hEnd]
    have hTr : goTrimSpace "" = "" := by decide
    have fe1 : (("event" : String) == "") = false := by decide
    have fe2 : (("event" : String) == "both") = false := by decide
    have fe3 : (("event" : String) == "task") = false := by decide
    refine ⟨(sortEventsByDate (searchEventRows st uid "" none (some (t + 86399)) "")).map
        SearchResult.event, ?_, ?_⟩
    · simp [searchHandler, hS, hE, hType, hRole, hKw, hTr, fe1, fe2, fe3]
    · intro e
      have hmem : ∀ x : Event,
          x ∈ sortEventsByDate (searchEventRows st uid "" none (some (t + 86399)) "") ↔
          x ∈ searchEventRows st uid "" none (some (t + 86399)) "" :=
        fun x => (List.perm_insertionSort _ _).mem_iff
      simp only [List.mem_map]
      constructor
      · rintro ⟨x, hx, hxe⟩
        injection hxe with hxe'
        subst hxe'
        rw [hmem x] at hx
        simpa [searchEventRows, eventKeywordMatch, dateInRange, List.mem_filter] using hx
      · rintro ⟨he, hd⟩
        refine ⟨e, ?_, rfl⟩
        rw [hmem e]
        simp [searchEventRows, eventKeywordMatch, dateInRange, List.mem_filter, he, hd]
  · rfl

theorem search_endDate_inclusive_witness :
    searchHandler baseState 7 ⟨"", "", "2024-05-01", "", "both"⟩ =
      .ok [SearchResult.event evParty, SearchResult.task taskCake evParty] :=
  (search_endDate_inclusive baseState 7 ⟨"", "", "2024-05-01", "", "event"⟩ 1714521600
    (by decide) rfl rfl rfl rfl).2

/-- C7: for every search request with role="attendee" (and type="event", no
date bounds), the event results are exactly the keyword-matching events on
which the caller holds an EventAttendee row with Role="attendee"
specifically; an organizer-only caller (owner and organizer-role row, no
attendee-role row) gets an empty result, even though GetInvitedEvents lists
the same event for that caller. -/
theorem search_attendee_role_strict (st : AppState) (uid : Nat) (req : SearchRequest)
    (hType : req.type = "event") (hRole : req.role = "attendee")
    (hStart : req.startDate = "") (hEnd : req.endDate = "") :
    (∃ rs, searchHandler st uid req = .ok rs ∧
       ∀ e : Event, (SearchResult.event e ∈ rs ↔
         e ∈ st.events ∧ eventKeywordMatch (goTrimSpace req.keyword) e = true ∧
         ∃ a, a ∈ st.attendees ∧ a.eventID = e.id ∧ a.userID = uid ∧
           a.role = "attendee")) ∧
    (searchHandler organizerOnlyState 9 ⟨"", "", "", "attendee", "event"⟩ = .ok []) ∧
    (getInvitedEvents organizerOnlyState 9 = [evGala]) := by
  refine ⟨?_, rfl, rfl⟩
  have hS : parseStartBound req.startDate = .ok none := by
    simp [parseStartBound, hStart]
  have hE : parseEndBound req.endDate = .ok none := by
    simp [parseEndBound, hEnd]
  have fe1 : (("event" : String) == "") = false := by decide
  have fe2 : (("event" : String) == "both") = false := by decide
  have fe3 : (("event" : String) == "task") = false := by decide
  have fa1 : (("attendee" : String) == "") = false := by decide
  have fa2 : (("attendee" : String) == "organizer") = false := by decide
  have fa3 : (("attendee" : String) == "attendee") = true := by decide
  refine ⟨(sortEventsByDate (searchEventRows st uid (goTrimSpace req.keyword) none none
      "attendee")).map SearchResult.event, ?_, ?_⟩
  · simp [searchHandler, hS, hE, hType, hRole, fe1, fe2, fe3, fa1, fa2, fa3]
  · intro e
    have hmem : ∀ x : Event,
        x ∈ sortEventsByDate (searchEventRows st uid (goTrimSpace req.keyword) none none
          "attendee") ↔
        x ∈ searchEventRows st uid (goTrimSpace req.keyword) none none "attendee" :=
      fun x => (List.perm_insertionSort _ _).mem_iff
    have hrows : ∀ x : Event,
        x ∈ searchEventRows st uid (goTrimSpace req.keyword) none none "attendee" ↔
        (x ∈ st.events ∧ eventKeywordMatch (goTrimSpace req.keyword) x = true) ∧
        ∃ a, a ∈ st.attendees ∧ a.eventID = x.id ∧ a.userID = uid ∧
          a.role = "attendee" := by
      intro x
      rw [show searchEventRows st uid (goTrimSpace req.keyword) none none "attendee" =
        joinAttendeeRows st uid (fun e => e.id)
          (st.events.filter (fun e => eventKeywordMatch (goTrimSpace req.keyword) e &&
            dateInRange none none e.date)) from rfl]
      rw [mem_joinAttendeeRows]
      simp [List.mem_filter, dateInRange, and_assoc]
    simp only [List.mem_map]
    constructor
    · rintro ⟨x, hx, hxe⟩
      injection hxe with hxe'
      subst hxe'
      rw [hmem x, hrows x] at hx
      exact ⟨hx.1.1, hx.1.2, hx.2⟩
    · rintro ⟨he, hk, ha⟩
      refine ⟨e, ?_, rfl⟩
      rw [hmem e, hrows e]
      exact ⟨⟨he, hk⟩, ha⟩

theorem search_attendee_role_strict_witness :
    searchHandler organizerOnlyState 9 ⟨"", "", "", "attendee", "event"⟩ = .ok [] :=
  (search_attendee_role_strict organizerOnlyState 9 ⟨"", "", "", "attendee", "event"⟩
    rfl rfl rfl rfl).2.1

/-- C8: for every search request with type="both" (dates absent or parsed,
role valid), the result is one flat sequence: all matching events first,
ordered by event date ascending and tagged as events, followed by all
matching tasks ordered by their parent event's date ascending and tagged as
tasks with their parent — never interleaved by date. -/
theorem search_both_events_then_tasks (st : AppState) (uid : Nat) (req : SearchRequest)
    (hType : req.type = "both") (so eo : Option Int)
    (hS : parseStartBound req.startDate = .ok so)
    (hE : parseEndBound req.endDate = .ok eo)
    (hRole : req.role = "" ∨ req.role = "organizer" ∨ req.role = "attendee") :
    ∃ evs tks,
      searchHandler st uid req =
        .ok (evs.map SearchResult.event ++ tks.map (fun p => SearchResult.task p.1 p.2)) ∧
      evs.Perm (searchEventRows st uid (goTrimSpace req.keyword) so eo req.role) ∧
      tks.Perm (searchTaskRows st uid (goTrimSpace req.keyword) so eo req.role) ∧
      List.Sorted (fun a b : Event => a.date ≤ b.date) evs ∧
      List.Sorted (fun p q : Task × Event => p.2.date ≤ q.2.date) tks := by
  have fb1 : (("both" : String) == "") = false := by decide
  have fb2 : (("both" : String) == "both") = true := by decide
  have hvr : (req.role == "" || req.role == "organizer" || req.role == "attendee") = true := by
    rcases hRole with h | h | h <;> simp [h]
  refine ⟨sortEventsByDate (searchEventRows st uid (goTrimSpace req.keyword) so eo req.role),
    sortTaskRowsByDate (searchTaskRows st uid (goTrimSpace req.keyword) so eo req.role),
    ?_, List.perm_insertionSort _ _, List.perm_insertionSort _ _,
    List.sorted_insertionSort _ _, List.sorted_insertionSort _ _⟩
  simp [searchHandler, hS, hE, hType, hvr, fb1, fb2]

theorem search_both_events_then_tasks_witness :
    ∃ evs tks,
      searchHandler baseState 7 ⟨"", "", "", "", "both"⟩ =
        .ok (evs.map SearchResult.event ++ tks.map (fun p => SearchResult.task p.1 p.2)) ∧
      evs.Perm (searchEventRows baseState 7 (goTrimSpace "") none none "") ∧
      tks.Perm (searchTaskRows baseState 7 (goTrimSpace "") none none "") ∧
      List.Sorted (fun a b : Event => a.date ≤ b.date) evs ∧
      List.Sorted (fun p q : Task × Event => p.2.date ≤ q.2.date) tks :=
  search_both_events_then_tasks baseState 7 ⟨"", "", "", "", "both"⟩ rfl none none
    rfl rfl (Or.inl rfl)

theorem search_unknown_type_empty_witness :
    searchHandler baseState 7 ⟨"", "", "", "weird-role", "xyz"⟩ = .ok [] :=
  search_unknown_type_empty baseState 7 ⟨"", "", "", "weird-role", "xyz"⟩
    (by decide) (by decide) (by decide) (by decide) (Or.inl rfl) (Or.inl rfl)

end EventPlanner
